import Mathlib

/-!
Verification of the maxdirsize cleanup engine (src/src/main.rs).

The development shallowly embeds the engine:
  - the recursive directory scanner read_dir (readDirAt, readDirChildren),
  - the per-tick processing function process (seeding of the per-directory
    file counters, the size check, the eviction loop, directory pruning),
  - the numeric path computing the low-water target, which the Rust code
    routes through f32 and f64 arithmetic (margin as f32 / 100.0, then
    margin as f64 * max_size_bytes as f64, truncated with as u64).

Machine floats are modelled exactly: every IEEE value arising in this
program is a nonnegative dyadic rational, represented here as an
unreduced pair (numerator, denominator) of naturals, and each operation
rounds to nearest-even at the format precision (24 bits for f32, 53 bits
for f64), exactly as IEEE-754 prescribes for the in-range values the
program manipulates.

The filesystem is a tree. Directory children are encoded with the nil
and cons constructors of the same inductive type, which keeps every
function structurally recursive and kernel-computable. A file carries
its size, its modification time (seconds), and a flag telling whether
the OS would let remove_file succeed (false models a permission error).
A badMeta node models an entry whose metadata read fails. A dir node
carries a readable flag; false models a directory listing error.
-/

set_option maxRecDepth 40000

namespace Maxdirsize

/-! ### Exact model of the f32 and f64 computations -/

/-- Bit length helper with explicit fuel; bitLen fuel n is the number of
binary digits of n provided fuel is at least that number. -/
def bitLen : Nat → Nat → Nat
  | 0, _ => 0
  | fuel + 1, n => if n = 0 then 0 else bitLen fuel (n / 2) + 1

/-- Number of binary digits of n (0 for 0); using n itself as fuel is
always sufficient. -/
def nbits (n : Nat) : Nat := bitLen n n

/-- Multiply the exact nonnegative rational q = q.1 / q.2 by 2 ^ s. -/
def pow2scale (s : Int) (q : Nat × Nat) : Nat × Nat :=
  if 0 ≤ s then (q.1 * 2 ^ s.toNat, q.2) else (q.1, q.2 * 2 ^ (-s).toNat)

/-- Comparison a ≤ b of exact nonnegative rationals by cross multiplication. -/
def qleB (a b : Nat × Nat) : Bool := a.1 * b.2 ≤ b.1 * a.2

/-- Product of exact nonnegative rationals, unreduced. -/
def qmul (a b : Nat × Nat) : Nat × Nat := (a.1 * b.1, a.2 * b.2)

/-- Round the exact nonnegative rational q to the nearest integer,
ties going to the even integer, as IEEE round-to-nearest-even does. -/
def roundHalfEvenN (q : Nat × Nat) : Nat :=
  let f := q.1 / q.2
  let r := q.1 % q.2
  if 2 * r < q.2 then f
  else if q.2 < 2 * r then f + 1
  else if f % 2 = 0 then f else f + 1

/-- Round a nonnegative rational to a binary floating-point value with a
p-bit significand, nearest-even. This is the exact value an IEEE format
with precision p returns for in-range inputs: fround 24 models f32
rounding, fround 53 models f64 rounding. -/
def fround (p : Nat) (q : Nat × Nat) : Nat × Nat :=
  if q.1 = 0 then (0, 1)
  else
    let e0 : Int := (nbits q.1 : Int) - (nbits q.2 : Int)
    let e : Int := if qleB (pow2scale e0 (1, 1)) q then e0 else e0 - 1
    let s : Int := e - ((p : Int) - 1)
    let m : Nat := roundHalfEvenN (pow2scale (-s) q)
    pow2scale s (m, 1)

/-- Conversion of a nonnegative f64 value to u64 as Rust's as u64 does:
truncation toward zero, saturating at the maximal u64. -/
def f64toU64 (q : Nat × Nat) : Nat := min (q.1 / q.2) (2 ^ 64 - 1)

/-- The low-water target the eviction loop compares against, exactly as
the code computes it: margin_pct as f32 / 100.0 (an exact f32 division,
hence a single f32 rounding of margin_pct / 100), widened exactly to
f64, multiplied by max_size_bytes converted to f64, the product rounded
to f64, then cast with as u64. -/
def evictionTarget (margin_pct max_size_bytes : Nat) : Nat :=
  f64toU64 (fround 53 (qmul (fround 24 (margin_pct, 100)) (fround 53 (max_size_bytes, 1))))

/-- The target the specification describes: the exact value
floor(marginFraction * maxSizeBytes) with marginFraction = margin_pct / 100. -/
def specTargetExact (margin_pct max_size_bytes : Nat) : Nat :=
  margin_pct * max_size_bytes / 100

/-! ### Paths -/

/-- A filesystem path, as its list of components below the filesystem
root; the scan root is itself such a list. -/
abbrev FsPath := List String

/-- Whether big starts with pre, component-wise; this is Rust's
Path::starts_with on our component lists. -/
def pathStartsWith : FsPath → FsPath → Bool
  | _, [] => true
  | [], _ :: _ => false
  | a :: p, b :: q => a == b && pathStartsWith p q

/-- The proper ancestors of a path, longest first, ending with the empty
path; this is Rust's path.ancestors().skip(1) on our component lists. -/
def strictAncestors (p : FsPath) : List FsPath :=
  ((List.inits p).dropLast).reverse

/-! ### The filesystem tree -/

/-- Filesystem model. Children sequences of a directory are encoded with
nil and cons in the same inductive type, keeping all recursion
structural. The del flag of a file is true when the OS would let
remove_file succeed; readable of a dir is true when listing it succeeds;
badMeta is an entry whose metadata read fails. -/
inductive FS where
  | file (size : Nat) (modified : Nat) (del : Bool)
  | badMeta
  | nil
  | cons (name : String) (child : FS) (rest : FS)
  | dir (readable : Bool) (children : FS)
deriving DecidableEq

/-- Find the child with the given name in a children sequence. -/
def findN : FS → String → Option FS
  | .cons n c rest, m => if n = m then some c else findN rest m
  | _, _ => none

/-- Remove the child with the given name from a children sequence. -/
def eraseN : FS → String → FS
  | .cons n c rest, m => if n = m then rest else .cons n c (eraseN rest m)
  | t, _ => t

/-- Replace the child with the given name in a children sequence. -/
def setN : FS → String → FS → FS
  | .cons n c rest, m, v => if n = m then .cons n v rest else .cons n c (setN rest m v)
  | t, _, _ => t

/-- Delete a file at a path relative to the given node, as
std::fs::remove_file does: it succeeds only when the path denotes an
existing file the OS lets us unlink (del = true). -/
def removeFileGo : FS → FsPath → Option FS
  | .dir rb ch, [n] =>
    match findN ch n with
    | some (.file _ _ true) => some (.dir rb (eraseN ch n))
    | _ => none
  | .dir rb ch, n :: m :: rest =>
    match findN ch n with
    | some sub =>
      match removeFileGo sub (m :: rest) with
      | some sub2 => some (.dir rb (setN ch n sub2))
      | none => none
    | none => none
  | _, _ => none

/-- Delete a file at an absolute path, given the scan root path the tree
stands at. -/
def removeFilePath (root : FsPath) (t : FS) (p : FsPath) : Option FS :=
  if pathStartsWith p root then removeFileGo t (p.drop root.length) else none

/-- Remove a directory at a path relative to the given node, as
std::fs::remove_dir does: non-recursive, it succeeds only when the
directory has no content at all. -/
def removeDirGo : FS → FsPath → Option FS
  | .dir rb ch, [n] =>
    match findN ch n with
    | some (.dir _ .nil) => some (.dir rb (eraseN ch n))
    | _ => none
  | .dir rb ch, n :: m :: rest =>
    match findN ch n with
    | some sub =>
      match removeDirGo sub (m :: rest) with
      | some sub2 => some (.dir rb (setN ch n sub2))
      | none => none
    | none => none
  | _, _ => none

/-- Remove a directory at an absolute path, given the scan root path. -/
def removeDirPath (root : FsPath) (t : FS) (p : FsPath) : Option FS :=
  if pathStartsWith p root then removeDirGo t (p.drop root.length) else none

/-! ### The scanner (read_dir) -/

/-- FileInfo of the source: absolute path, size in bytes, modification
time in seconds. -/
structure FileInfo where
  path : FsPath
  size : Nat
  modified : Nat
deriving DecidableEq

/-- ReadDirResultEntry of the source: a discovered directory or file. -/
inductive ReadDirResultEntry where
  | folder (path : FsPath)
  | file (info : FileInfo)
deriving DecidableEq

/-- ReadDirResult of the source: the flat entry list and the byte total. -/
structure ReadDirResult where
  entries : List ReadDirResultEntry
  total_size : Nat
deriving DecidableEq

/-- Recursive traversal of a children sequence at absolute path p,
mirroring the body of read_dir: entries whose metadata read fails are
skipped; a file contributes its size and a FileInfo entry; a directory
contributes a folder entry followed by its recursively scanned content,
and a listing failure anywhere (dir with readable = false) aborts the
whole scan with an error. Malformed children (bare nil or cons used as a
child) cannot arise from well-formed trees and are skipped. -/
def readDirChildren : FsPath → FS → Except Unit (List ReadDirResultEntry × Nat)
  | _, .nil => .ok ([], 0)
  | p, .cons n (.file s m _) rest =>
    match readDirChildren p rest with
    | .error e => .error e
    | .ok (es, tot) => .ok (.file ⟨p ++ [n], s, m⟩ :: es, s + tot)
  | p, .cons _ .badMeta rest => readDirChildren p rest
  | _, .cons _ (.dir false _) _ => .error ()
  | p, .cons n (.dir true ch) rest =>
    match readDirChildren (p ++ [n]) ch with
    | .error e => .error e
    | .ok (sub, stot) =>
      match readDirChildren p rest with
      | .error e => .error e
      | .ok (es, tot) => .ok (.folder (p ++ [n]) :: (sub ++ es), stot + tot)
  | p, .cons _ .nil rest => readDirChildren p rest
  | p, .cons _ (.cons _ _ _) rest => readDirChildren p rest
  | _, .file _ _ _ => .error ()
  | _, .badMeta => .error ()
  | _, .dir _ _ => .error ()

/-- read_dir of the source applied to the scan root: lists the root (an
error when the root is not a readable directory) and traverses it. -/
def readDirAt (root : FsPath) (t : FS) : Except Unit ReadDirResult :=
  match t with
  | .dir true ch =>
    match readDirChildren root ch with
    | .error e => .error e
    | .ok (es, tot) => .ok ⟨es, tot⟩
  | _ => .error ()

/-- Whether a children sequence contains, along metadata-readable
directory chains, a directory whose listing fails. These are exactly the
subdirectories whose read_dir call the source propagates with the ?
operator. -/
def hasUnreadableChildren : FS → Bool
  | .cons _ (.dir false _) _ => true
  | .cons _ (.dir true ch) rest => hasUnreadableChildren ch || hasUnreadableChildren rest
  | .cons _ (.file _ _ _) rest => hasUnreadableChildren rest
  | .cons _ .badMeta rest => hasUnreadableChildren rest
  | .cons _ .nil rest => hasUnreadableChildren rest
  | .cons _ (.cons _ _ _) rest => hasUnreadableChildren rest
  | .file _ _ _ => false
  | .badMeta => false
  | .nil => false
  | .dir _ _ => false

/-- Whether the tree rooted at this node fails to scan because the root
itself or some reachable subdirectory cannot be listed. -/
def hasUnreadableAt : FS → Bool
  | .dir false _ => true
  | .dir true ch => hasUnreadableChildren ch
  | _ => false

/-! ### The per-directory file counters -/

/-- The counter map parent_dirs_files_count, modelled as an association
list. Rust's HashMap iterates in an unspecified order; the model fixes
the insertion order of the run, which is one of the possible orders. -/
abbrev CountMap := List (FsPath × Int)

/-- Lookup in the counter map. -/
def alistGet : CountMap → FsPath → Option Int
  | [], _ => none
  | (k, v) :: rest, q => if k = q then some v else alistGet rest q

/-- entry(p).or_insert(0) of the source: ensure the key exists, seeding
it with 0. -/
def alistSeed0 : CountMap → FsPath → CountMap
  | [], q => [(q, 0)]
  | (k, v) :: rest, q => if k = q then (k, v) :: rest else (k, v) :: alistSeed0 rest q

/-- entry(p).or_insert(0) += 1 of the source. -/
def alistBump : CountMap → FsPath → CountMap
  | [], q => [(q, 1)]
  | (k, v) :: rest, q => if k = q then (k, v + 1) :: rest else (k, v) :: alistBump rest q

/-- get_mut(p).map(|c| *c -= 1) of the source: decrement when the key is
present, otherwise leave the map unchanged. -/
def alistDec : CountMap → FsPath → CountMap
  | [], _ => []
  | (k, v) :: rest, q => if k = q then (k, v - 1) :: rest else (k, v) :: alistDec rest q

/-- The seeding loop at the top of process: every folder entry is seeded
with count 0; for every file entry each strict ancestor that lies
strictly below the scan directory is incremented. -/
def seedCounts (directory : FsPath) (entries : List ReadDirResultEntry) : CountMap :=
  entries.foldl
    (fun m e =>
      match e with
      | .folder p => alistSeed0 m p
      | .file fi =>
        (strictAncestors fi.path).foldl
          (fun m2 a =>
            if pathStartsWith a directory && a != directory then alistBump m2 a else m2)
          m)
    []

/-! ### The planner and evictor -/

/-- The FileEntry items of the inventory, in scan order. -/
def filesOf (entries : List ReadDirResultEntry) : List FileInfo :=
  entries.filterMap (fun e =>
    match e with
    | .file fi => some fi
    | .folder _ => none)

/-- Stable insertion keeping the list sorted ascending by modification
time. -/
def insertByModified (f : FileInfo) : List FileInfo → List FileInfo
  | [] => [f]
  | g :: rest =>
    if g.modified < f.modified then g :: insertByModified f rest
    else f :: g :: rest

/-- The sort_by(modified) call of the source: stable, ascending by
modification time (oldest first). -/
def sortByModified : List FileInfo → List FileInfo
  | [] => []
  | f :: rest => insertByModified f (sortByModified rest)

/-- Outcome of the eviction loop: the final running total, the part of
the victim vector never popped, the counter map, the filesystem, the
victims popped (in pop order), and the files whose deletion succeeded
(in deletion order). -/
structure EvictResult where
  total : Nat
  queue : List FileInfo
  counts : CountMap
  fs : FS
  popped : List FileInfo
  removed : List FsPath
deriving DecidableEq

/-- The while loop of process. The source sorts the victims ascending
and consumes them with Vec::pop, which takes elements from the end of
the vector; the model therefore receives the reversed sorted vector and
consumes it from the head, which is the same consumption order. On a
successful deletion the counter of the immediate parent is decremented;
on a failed deletion nothing is decremented; in both cases the file's
recorded size is subtracted from the running total. -/
def evictLoop (directory : FsPath) (target : Nat) :
    List FileInfo → Nat → CountMap → FS → EvictResult
  | [], total, c, fs => ⟨total, [], c, fs, [], []⟩
  | f :: rest, total, c, fs =>
    if total ≤ target then ⟨total, f :: rest, c, fs, [], []⟩
    else
      match removeFilePath directory fs f.path with
      | some fs2 =>
        let r := evictLoop directory target rest (total - f.size)
          (alistDec c f.path.dropLast) fs2
        ⟨r.total, r.queue, r.counts, r.fs, f :: r.popped, f.path :: r.removed⟩
      | none =>
        let r := evictLoop directory target rest (total - f.size) c fs
        ⟨r.total, r.queue, r.counts, r.fs, f :: r.popped, r.removed⟩

/-! ### The pruner -/

/-- The final for_each of process: every map entry with count at most 0
gets a remove_dir attempt, in map order; failures leave the filesystem
unchanged. Returns the filesystem and the directories actually removed,
in removal order. -/
def pruneDirs (directory : FsPath) : CountMap → FS → FS × List FsPath
  | [], fs => (fs, [])
  | (p, c) :: rest, fs =>
    if c ≤ 0 then
      match removeDirPath directory fs p with
      | some fs2 =>
        let r := pruneDirs directory rest fs2
        (r.1, p :: r.2)
      | none => pruneDirs directory rest fs
    else pruneDirs directory rest fs

/-! ### process and the tick -/

/-- Everything one tick reports and changes. -/
structure TickReport where
  scanOk : Bool
  earlyExit : Bool
  totalFiles : Nat
  finalTotal : Nat
  removedFiles : List FsPath
  removedDirs : List FsPath
  popped : List FileInfo
  remainingPool : List FileInfo
  counts : CountMap
  fs : FS
deriving DecidableEq

/-- process of the source. It seeds the counter map, computes
max_size_bytes = max_size_mb * 1024 * 1024, and exits early reporting
the totals when total_size < max_size_bytes; otherwise it sorts the
files ascending by modification time, runs the eviction loop against
the float-computed target, then prunes the directories whose count
ended at 0 or below. The margin percentage is passed as the integer the
configuration holds; the f32 division by 100 performed in main and the
f64 arithmetic of process are both inside evictionTarget. -/
def process (directory : FsPath) (data : ReadDirResult) (max_size_mb margin_pct : Nat)
    (fs : FS) : TickReport :=
  let counts0 := seedCounts directory data.entries
  let files := filesOf data.entries
  let max_size_bytes := max_size_mb * 1024 * 1024
  if data.total_size < max_size_bytes then
    ⟨true, true, files.length, data.total_size, [], [], [], [], counts0, fs⟩
  else
    let target := evictionTarget margin_pct max_size_bytes
    let r := evictLoop directory target ((sortByModified files).reverse)
      data.total_size counts0 fs
    let pr := pruneDirs directory r.counts r.fs
    ⟨true, false, files.length, r.total, r.removed, pr.2, r.popped, r.queue, r.counts, pr.1⟩

/-- One iteration of the main loop: scan the directory, then process; a
scan error only logs and changes nothing. -/
def runTick (directory : FsPath) (max_size_mb margin_pct : Nat) (fs : FS) : TickReport :=
  match readDirAt directory fs with
  | .error _ => ⟨false, false, 0, 0, [], [], [], [], [], fs⟩
  | .ok data => process directory data max_size_mb margin_pct fs

/-! ### Auxiliary notions used by the statements -/

/-- Total number of bytes recorded for a list of files. -/
def sumSizes (l : List FileInfo) : Nat := (l.map FileInfo.size).sum

/-- Concatenation of two children sequences. -/
def appendChildren : FS → FS → FS
  | .cons n c rest, l2 => .cons n c (appendChildren rest l2)
  | _, l2 => l2

/-! ### Helper lemmas -/

theorem process_skip (directory : FsPath) (data : ReadDirResult) (mb pct : Nat) (fs : FS)
    (h : data.total_size < mb * 1024 * 1024) :
    process directory data mb pct fs =
      ⟨true, true, (filesOf data.entries).length, data.total_size, [], [], [], [],
        seedCounts directory data.entries, fs⟩ := by
  simp [process, h]

theorem sumSizes_nil : sumSizes [] = 0 := rfl

theorem sumSizes_cons (f : FileInfo) (l : List FileInfo) :
    sumSizes (f :: l) = f.size + sumSizes l := by
  simp [sumSizes]

theorem sumSizes_append (l1 l2 : List FileInfo) :
    sumSizes (l1 ++ l2) = sumSizes l1 + sumSizes l2 := by
  simp [sumSizes]

theorem sumSizes_reverse (l : List FileInfo) : sumSizes l.reverse = sumSizes l := by
  simp [sumSizes, List.sum_reverse]

theorem sumSizes_insertByModified (f : FileInfo) (l : List FileInfo) :
    sumSizes (insertByModified f l) = f.size + sumSizes l := by
  induction l with
  | nil => rfl
  | cons g rest ih =>
    by_cases h : g.modified < f.modified
    · simp [insertByModified, h, sumSizes_cons, ih]
      omega
    · simp [insertByModified, h, sumSizes_cons]

theorem sumSizes_sortByModified (l : List FileInfo) :
    sumSizes (sortByModified l) = sumSizes l := by
  induction l with
  | nil => rfl
  | cons f rest ih => simp [sortByModified, sumSizes_insertByModified, ih, sumSizes_cons]

theorem evictLoop_stop (directory : FsPath) (target : Nat) :
    ∀ (queue : List FileInfo) (total : Nat) (c : CountMap) (fs : FS),
      (evictLoop directory target queue total c fs).total ≤ target ∨
      (evictLoop directory target queue total c fs).queue = [] := by
  intro queue
  induction queue with
  | nil => intro total c fs; right; simp [evictLoop]
  | cons f rest ih =>
    intro total c fs
    by_cases h : total ≤ target
    · left; simp [evictLoop, h]
    · simp only [evictLoop, if_neg h]
      cases hr : removeFilePath directory fs f.path with
      | some fs2 => exact ih _ _ _
      | none => exact ih _ _ _

theorem evictLoop_le (directory : FsPath) (target : Nat) :
    ∀ (queue : List FileInfo) (total : Nat) (c : CountMap) (fs : FS),
      (evictLoop directory target queue total c fs).total ≤ total := by
  intro queue
  induction queue with
  | nil => intro total c fs; simp [evictLoop]
  | cons f rest ih =>
    intro total c fs
    by_cases h : total ≤ target
    · simp [evictLoop, h]
    · simp only [evictLoop, if_neg h]
      cases hr : removeFilePath directory fs f.path with
      | some fs2 =>
        exact le_trans (ih _ _ _) (Nat.sub_le _ _)
      | none =>
        exact le_trans (ih _ _ _) (Nat.sub_le _ _)

theorem evictLoop_account (directory : FsPath) (target : Nat) :
    ∀ (queue : List FileInfo) (total : Nat) (c : CountMap) (fs : FS),
      sumSizes queue ≤ total →
      sumSizes (evictLoop directory target queue total c fs).popped ≤ total ∧
      (evictLoop directory target queue total c fs).total +
        sumSizes (evictLoop directory target queue total c fs).popped = total := by
  intro queue
  induction queue with
  | nil => intro total c fs _; simp [evictLoop, sumSizes_nil]
  | cons f rest ih =>
    intro total c fs hsum
    rw [sumSizes_cons] at hsum
    by_cases h : total ≤ target
    · simp [evictLoop, h, sumSizes_nil]
    · simp only [evictLoop, if_neg h]
      have hrest : sumSizes rest ≤ total - f.size := by omega
      cases hr : removeFilePath directory fs f.path with
      | some fs2 =>
        have := ih (total - f.size) (alistDec c f.path.dropLast) fs2 hrest
        simp only [sumSizes_cons]
        omega
      | none =>
        have := ih (total - f.size) c fs hrest
        simp only [sumSizes_cons]
        omega

theorem readDirChildren_total :
    ∀ (p : FsPath) (l : FS) (es : List ReadDirResultEntry) (tot : Nat),
      readDirChildren p l = .ok (es, tot) → tot = sumSizes (filesOf es) := by
  intro p l
  induction p, l using readDirChildren.induct with
  | case1 p =>
    intro es tot h
    simp [readDirChildren] at h
    obtain ⟨h1, h2⟩ := h
    subst h1
    subst h2
    simp [filesOf, sumSizes]
  | case2 p n s m del rest e he ih =>
    intro es tot h
    simp only [readDirChildren] at h
    rw [he] at h
    exact absurd h (by simp)
  | case3 p n s m del rest es2 tot2 hok ih =>
    intro es tot h
    simp only [readDirChildren] at h
    rw [hok] at h
    simp at h
    rw [← h.1, ← h.2, ih es2 tot2 hok]
    simp [filesOf, List.filterMap_cons, sumSizes]
  | case4 p n rest ih =>
    intro es tot h
    simp only [readDirChildren] at h
    exact ih es tot h
  | case5 p n ch rest =>
    intro es tot h
    simp [readDirChildren] at h
  | case6 p n ch rest e he ih =>
    intro es tot h
    simp only [readDirChildren] at h
    rw [he] at h
    exact absurd h (by simp)
  | case7 p n ch rest sub stot hsub e he ihc ihr =>
    intro es tot h
    simp only [readDirChildren] at h
    rw [hsub, he] at h
    exact absurd h (by simp)
  | case8 p n ch rest sub stot hsub es2 tot2 hok ihc ihr =>
    intro es tot h
    simp only [readDirChildren] at h
    rw [hsub, hok] at h
    simp at h
    rw [← h.1, ← h.2, ihc sub stot hsub, ihr es2 tot2 hok]
    simp [filesOf, List.filterMap_cons, List.filterMap_append, sumSizes, List.map_append]
  | case9 p n rest ih =>
    intro es tot h
    simp only [readDirChildren] at h
    exact ih es tot h
  | case10 p n n2 c2 r2 rest ih =>
    intro es tot h
    simp only [readDirChildren] at h
    exact ih es tot h
  | case11 p s m del =>
    intro es tot h
    simp [readDirChildren] at h
  | case12 p =>
    intro es tot h
    simp [readDirChildren] at h
  | case13 p rb ch =>
    intro es tot h
    simp [readDirChildren] at h

theorem readDirAt_total (root : FsPath) (t : FS) (data : ReadDirResult)
    (h : readDirAt root t = .ok data) :
    data.total_size = sumSizes (filesOf data.entries) := by
  cases t with
  | dir rb ch =>
    cases rb with
    | false => simp [readDirAt] at h
    | true =>
      simp only [readDirAt] at h
      cases hr : readDirChildren root ch with
      | error e => rw [hr] at h; exact absurd h (by simp)
      | ok pr =>
        obtain ⟨es, tot⟩ := pr
        rw [hr] at h
        simp at h
        rw [← h]
        exact readDirChildren_total root ch es tot hr
  | file s m d => simp [readDirAt] at h
  | badMeta => simp [readDirAt] at h
  | nil => simp [readDirAt] at h
  | cons n c rest => simp [readDirAt] at h

theorem readDirChildren_unreadable :
    ∀ (l : FS) (p : FsPath),
      hasUnreadableChildren l = true → readDirChildren p l = .error () := by
  intro l
  induction l using hasUnreadableChildren.induct with
  | case1 n ch rest =>
    intro p h
    simp [readDirChildren]
  | case2 n ch rest ihc ihr =>
    intro p h
    simp only [hasUnreadableChildren, Bool.or_eq_true] at h
    cases h with
    | inl hch =>
      simp only [readDirChildren]
      rw [ihc (p ++ [n]) hch]
    | inr hrest =>
      simp only [readDirChildren]
      cases hsub : readDirChildren (p ++ [n]) ch with
      | error e => rfl
      | ok pr =>
        obtain ⟨sub, stot⟩ := pr
        rw [ihr p hrest]
  | case3 n s m del rest ih =>
    intro p h
    simp only [hasUnreadableChildren] at h
    simp only [readDirChildren]
    rw [ih p h]
  | case4 n rest ih =>
    intro p h
    simp only [hasUnreadableChildren] at h
    simp only [readDirChildren]
    exact ih p h
  | case5 n rest ih =>
    intro p h
    simp only [hasUnreadableChildren] at h
    simp only [readDirChildren]
    exact ih p h
  | case6 n n2 c2 r2 rest ih =>
    intro p h
    simp only [hasUnreadableChildren] at h
    simp only [readDirChildren]
    exact ih p h
  | case7 s m del =>
    intro p h
    simp [hasUnreadableChildren] at h
  | case8 =>
    intro p h
    simp [hasUnreadableChildren] at h
  | case9 =>
    intro p h
    simp [hasUnreadableChildren] at h
  | case10 rb ch =>
    intro p h
    simp [hasUnreadableChildren] at h

end Maxdirsize

deriving instance DecidableEq for Except

namespace Maxdirsize

/-! ### Claim C1 -/

/-- C1: the claim says victims are consumed oldest-modified-first. The code
sorts the pool ascending by modification time and then consumes it with
Vec::pop, which removes from the end, so it deletes the newest file first.
At the failing input (two 60 MiB files, modified at 1 and 2, limit 100 MB,
margin 85) the newer file b.txt is removed while the older a.txt stays,
contradicting the claim; the log line of the code (doing cleanup of older
files) shows oldest-first was the intent, so this is recorded as a code
bug. This theorem evaluates the embedded code at the failing input. -/
theorem claim1_failing_input_eval :
    (process ["r"]
      ⟨[.file ⟨["r", "a.txt"], 62914560, 1⟩, .file ⟨["r", "b.txt"], 62914560, 2⟩],
        125829120⟩
      100 85
      (.dir true (.cons "a.txt" (.file 62914560 1 true)
        (.cons "b.txt" (.file 62914560 2 true) .nil)))).removedFiles =
      [["r", "b.txt"]] ∧
    ((process ["r"]
      ⟨[.file ⟨["r", "a.txt"], 62914560, 1⟩, .file ⟨["r", "b.txt"], 62914560, 2⟩],
        125829120⟩
      100 85
      (.dir true (.cons "a.txt" (.file 62914560 1 true)
        (.cons "b.txt" (.file 62914560 2 true) .nil)))).remainingPool).map
        FileInfo.path = [["r", "a.txt"]] := by
  decide

/-! ### Claim C2 -/

/-- C2 counterexample: with the nested structure r/a/b/file.txt as the only
file (200 MiB, limit 100 MB, margin 50) the file is successfully evicted,
yet the tracked count of r/a ends at 1, not 0, because the code only
decrements the immediate parent directory, so r/a is not a pruning
candidate in that tick: only r/a/b is pruned. This refutes the claim that
both counts reach 0. -/
theorem claim2_counterexample :
    alistGet (runTick ["r"] 100 50
      (.dir true (.cons "a" (.dir true (.cons "b" (.dir true
        (.cons "file.txt" (.file 209715200 7 true) .nil)) .nil)) .nil))).counts
      ["r", "a"] = some 1 ∧
    (runTick ["r"] 100 50
      (.dir true (.cons "a" (.dir true (.cons "b" (.dir true
        (.cons "file.txt" (.file 209715200 7 true) .nil)) .nil)) .nil))).removedDirs =
      [["r", "a", "b"]] := by
  decide

/-- C2 amended: in a tick where r/a/b/file.txt is the only file and it is
successfully evicted, only the tracked count of the immediate parent
r/a/b reaches 0 and only r/a/b is pruned in that tick; the count of r/a
remains 1 (successful deletions decrement only the immediate parent), so
r/a is not a pruning candidate in the same tick. -/
theorem claim2_amended :
    alistGet (runTick ["r"] 100 50
      (.dir true (.cons "a" (.dir true (.cons "b" (.dir true
        (.cons "file.txt" (.file 209715200 7 true) .nil)) .nil)) .nil))).counts
      ["r", "a", "b"] = some 0 ∧
    alistGet (runTick ["r"] 100 50
      (.dir true (.cons "a" (.dir true (.cons "b" (.dir true
        (.cons "file.txt" (.file 209715200 7 true) .nil)) .nil)) .nil))).counts
      ["r", "a"] = some 1 ∧
    (runTick ["r"] 100 50
      (.dir true (.cons "a" (.dir true (.cons "b" (.dir true
        (.cons "file.txt" (.file 209715200 7 true) .nil)) .nil)) .nil))).removedDirs =
      [["r", "a", "b"]] := by
  decide

/-! ### Claim C3 -/

/-- C3 counterexample: the claim describes the stopping condition with the
exactly computed target floor(margin times maxSizeBytes). With margin 85
and maxSizeBytes 100 MiB the code's float-routed target is 89128962 while
the exact floor is 89128960; on an inventory totalling exactly 100 MiB
whose newest file has size 15728638, the loop stops at running total
89128962 with the pool not exhausted, although 89128962 is not at or
below the exact floor target, refuting the claim as stated. -/
theorem claim3_counterexample :
    ¬ ((process ["r"]
        ⟨[.file ⟨["r", "a.txt"], 89128962, 1⟩, .file ⟨["r", "b.txt"], 15728638, 2⟩],
          104857600⟩
        100 85
        (.dir true (.cons "a.txt" (.file 89128962 1 true)
          (.cons "b.txt" (.file 15728638 2 true) .nil)))).finalTotal ≤
        specTargetExact 85 (100 * 1024 * 1024) ∨
      (process ["r"]
        ⟨[.file ⟨["r", "a.txt"], 89128962, 1⟩, .file ⟨["r", "b.txt"], 15728638, 2⟩],
          104857600⟩
        100 85
        (.dir true (.cons "a.txt" (.file 89128962 1 true)
          (.cons "b.txt" (.file 15728638 2 true) .nil)))).remainingPool = []) := by
  decide

/-- C3 amended: for every inventory with totalSize at least maxSizeBytes,
the eviction loop stops exactly when the running total reaches the target
the code actually computes through f32 and f64 arithmetic (evictionTarget,
which can differ from the exact floor, see C7) or when the victim pool is
exhausted, whichever happens first, and the final running total never
exceeds the pre-eviction total. -/
theorem claim3_amended (directory : FsPath) (data : ReadDirResult) (mb pct : Nat)
    (fs : FS) (h : mb * 1024 * 1024 ≤ data.total_size) :
    ((process directory data mb pct fs).finalTotal ≤
        evictionTarget pct (mb * 1024 * 1024) ∨
      (process directory data mb pct fs).remainingPool = []) ∧
    (process directory data mb pct fs).finalTotal ≤ data.total_size := by
  have hn : ¬ data.total_size < mb * 1024 * 1024 := not_lt.mpr h
  simp only [process, if_neg hn]
  exact ⟨evictLoop_stop _ _ _ _ _ _, evictLoop_le _ _ _ _ _ _⟩

/-- C3 witness: the amended theorem applied at a concrete inventory. -/
theorem claim3_witness :
    1 * 1024 * 1024 ≤ (2097152 : Nat) ∧
    (((process ["r"] ⟨[.file ⟨["r", "f"], 2097152, 1⟩], 2097152⟩ 1 85
        (.dir true (.cons "f" (.file 2097152 1 true) .nil))).finalTotal ≤
          evictionTarget 85 (1 * 1024 * 1024) ∨
      (process ["r"] ⟨[.file ⟨["r", "f"], 2097152, 1⟩], 2097152⟩ 1 85
        (.dir true (.cons "f" (.file 2097152 1 true) .nil))).remainingPool = []) ∧
    (process ["r"] ⟨[.file ⟨["r", "f"], 2097152, 1⟩], 2097152⟩ 1 85
        (.dir true (.cons "f" (.file 2097152 1 true) .nil))).finalTotal ≤ 2097152) :=
  ⟨by decide,
    claim3_amended ["r"] ⟨[.file ⟨["r", "f"], 2097152, 1⟩], 2097152⟩ 1 85
      (.dir true (.cons "f" (.file 2097152 1 true) .nil)) (by decide)⟩

/-! ### Claim C4 -/

/-- C4: for every inventory with totalSize strictly below maxSizeBytes the
tick deletes no file and no directory; process reports the totals and
returns before eviction and pruning, leaving the filesystem unchanged. -/
theorem claim4_below_limit_no_deletions (directory : FsPath) (data : ReadDirResult)
    (mb pct : Nat) (fs : FS) (h : data.total_size < mb * 1024 * 1024) :
    (process directory data mb pct fs).removedFiles = [] ∧
    (process directory data mb pct fs).removedDirs = [] ∧
    (process directory data mb pct fs).fs = fs ∧
    (process directory data mb pct fs).earlyExit = true := by
  rw [process_skip directory data mb pct fs h]
  exact ⟨rfl, rfl, rfl, rfl⟩

/-- C4 witness: the theorem applied at a concrete small inventory. -/
theorem claim4_witness :
    (3 : Nat) < 1 * 1024 * 1024 ∧
    ((process ["r"] ⟨[.file ⟨["r", "x"], 3, 1⟩], 3⟩ 1 85
        (.dir true (.cons "x" (.file 3 1 true) .nil))).removedFiles = [] ∧
    (process ["r"] ⟨[.file ⟨["r", "x"], 3, 1⟩], 3⟩ 1 85
        (.dir true (.cons "x" (.file 3 1 true) .nil))).removedDirs = [] ∧
    (process ["r"] ⟨[.file ⟨["r", "x"], 3, 1⟩], 3⟩ 1 85
        (.dir true (.cons "x" (.file 3 1 true) .nil))).fs =
      .dir true (.cons "x" (.file 3 1 true) .nil) ∧
    (process ["r"] ⟨[.file ⟨["r", "x"], 3, 1⟩], 3⟩ 1 85
        (.dir true (.cons "x" (.file 3 1 true) .nil))).earlyExit = true) :=
  ⟨by decide,
    claim4_below_limit_no_deletions ["r"] ⟨[.file ⟨["r", "x"], 3, 1⟩], 3⟩ 1 85
      (.dir true (.cons "x" (.file 3 1 true) .nil)) (by decide)⟩

/-! ### Claim C5 -/

/-- C5: when deleting the popped victim fails (removeFilePath returns none,
modelling a permission error or an already-gone file), the counter map is
not decremented, the filesystem is unchanged, the removal log gains no
entry, the file's recorded size is still subtracted from the running
total, and the loop continues exactly as it would after a successful
deletion of the same size: one loop step with a failing deletion equals
the continuation on the rest of the queue with total reduced by the
file's size and everything else untouched. Logging of the error is
outside the model. -/
theorem claim5_failed_deletion_step (directory : FsPath) (target : Nat) (f : FileInfo)
    (rest : List FileInfo) (total : Nat) (c : CountMap) (fs : FS)
    (h1 : target < total) (h2 : removeFilePath directory fs f.path = none) :
    (evictLoop directory target (f :: rest) total c fs).counts =
      (evictLoop directory target rest (total - f.size) c fs).counts ∧
    (evictLoop directory target (f :: rest) total c fs).fs =
      (evictLoop directory target rest (total - f.size) c fs).fs ∧
    (evictLoop directory target (f :: rest) total c fs).total =
      (evictLoop directory target rest (total - f.size) c fs).total ∧
    (evictLoop directory target (f :: rest) total c fs).removed =
      (evictLoop directory target rest (total - f.size) c fs).removed ∧
    (evictLoop directory target (f :: rest) total c fs).popped =
      f :: (evictLoop directory target rest (total - f.size) c fs).popped := by
  have hn : ¬ total ≤ target := not_le.mpr h1
  simp [evictLoop, if_neg hn, h2]

/-- C5 witness: the theorem applied to a concrete non-deletable file. -/
theorem claim5_witness :
    (0 : Nat) < 10 ∧
    removeFilePath ["r"] (.dir true (.cons "x" (.file 7 1 false) .nil)) ["r", "x"] =
      none ∧
    ((evictLoop ["r"] 0 [⟨["r", "x"], 7, 1⟩] 10 []
        (.dir true (.cons "x" (.file 7 1 false) .nil))).counts =
      (evictLoop ["r"] 0 [] (10 - (7 : Nat)) []
        (.dir true (.cons "x" (.file 7 1 false) .nil))).counts ∧
    (evictLoop ["r"] 0 [⟨["r", "x"], 7, 1⟩] 10 []
        (.dir true (.cons "x" (.file 7 1 false) .nil))).fs =
      (evictLoop ["r"] 0 [] (10 - (7 : Nat)) []
        (.dir true (.cons "x" (.file 7 1 false) .nil))).fs ∧
    (evictLoop ["r"] 0 [⟨["r", "x"], 7, 1⟩] 10 []
        (.dir true (.cons "x" (.file 7 1 false) .nil))).total =
      (evictLoop ["r"] 0 [] (10 - (7 : Nat)) []
        (.dir true (.cons "x" (.file 7 1 false) .nil))).total ∧
    (evictLoop ["r"] 0 [⟨["r", "x"], 7, 1⟩] 10 []
        (.dir true (.cons "x" (.file 7 1 false) .nil))).removed =
      (evictLoop ["r"] 0 [] (10 - (7 : Nat)) []
        (.dir true (.cons "x" (.file 7 1 false) .nil))).removed ∧
    (evictLoop ["r"] 0 [⟨["r", "x"], 7, 1⟩] 10 []
        (.dir true (.cons "x" (.file 7 1 false) .nil))).popped =
      (⟨["r", "x"], 7, 1⟩ : FileInfo) ::
        (evictLoop ["r"] 0 [] (10 - (7 : Nat)) []
          (.dir true (.cons "x" (.file 7 1 false) .nil))).popped) :=
  ⟨by decide, by decide,
    claim5_failed_deletion_step ["r"] 0 ⟨["r", "x"], 7, 1⟩ [] 10 []
      (.dir true (.cons "x" (.file 7 1 false) .nil)) (by decide) (by decide)⟩

/-! ### Claim C6 -/

/-- C6 counterexample: a tick can end with the margin satisfied while the
immediately following tick still deletes a directory. Take the tree
r containing the empty nested directories a and a/b plus a 1 MiB file,
with limit 1 MB and margin 100, so the target equals the limit and the
cleanup path runs without evicting any file. The pruner visits a before
its child b (the seeding order of the counter map, one of the possible
iteration orders of the HashMap): removing a fails because b is still
inside, then b is removed. The first tick ends with the running total at
the target, yet the second tick, on the resulting state with no external
changes, removes the now empty directory a, refuting the idempotence
claim. -/
theorem claim6_counterexample :
    (runTick ["r"] 1 100
      (.dir true (.cons "a" (.dir true (.cons "b" (.dir true .nil) .nil))
        (.cons "f" (.file 1048576 5 true) .nil)))).finalTotal ≤
      evictionTarget 100 (1 * 1024 * 1024) ∧
    (runTick ["r"] 1 100
      ((runTick ["r"] 1 100
        (.dir true (.cons "a" (.dir true (.cons "b" (.dir true .nil) .nil))
          (.cons "f" (.file 1048576 5 true) .nil)))).fs)).removedDirs =
      [["r", "a"]] := by
  decide

/-- C6 amended: if a tick ends with the margin satisfied and the scan of
the resulting state totals strictly less than maxSizeBytes, then the tick
run immediately afterwards on that state (same policy, no external
filesystem changes) performs no deletions at all; when the rescanned
total still reaches maxSizeBytes (possible when the target equals the
limit, margin 100, or the limit is 0) the next tick can still prune
directories left over from the previous tick's pruning order. -/
theorem claim6_amended (directory : FsPath) (mb pct : Nat) (fs0 : FS)
    (es : List ReadDirResultEntry) (tot : Nat)
    (h1 : (runTick directory mb pct fs0).finalTotal ≤
      evictionTarget pct (mb * 1024 * 1024))
    (h2 : readDirAt directory ((runTick directory mb pct fs0).fs) = .ok ⟨es, tot⟩)
    (h3 : tot < mb * 1024 * 1024) :
    (runTick directory mb pct ((runTick directory mb pct fs0).fs)).removedFiles = [] ∧
    (runTick directory mb pct ((runTick directory mb pct fs0).fs)).removedDirs = [] := by
  generalize hfs : (runTick directory mb pct fs0).fs = fs1 at h2 ⊢
  simp only [runTick, h2]
  rw [process_skip directory ⟨es, tot⟩ mb pct fs1 h3]
  exact ⟨rfl, rfl⟩

/-- C6 witness: the amended theorem applied to a two-file state whose
first tick evicts everything, so the second scan totals 0. -/
theorem claim6_witness :
    (runTick ["r"] 100 50
      (.dir true (.cons "o" (.file 62914560 1 true)
        (.cons "n" (.file 62914560 2 true) .nil)))).finalTotal ≤
      evictionTarget 50 (100 * 1024 * 1024) ∧
    readDirAt ["r"] ((runTick ["r"] 100 50
      (.dir true (.cons "o" (.file 62914560 1 true)
        (.cons "n" (.file 62914560 2 true) .nil)))).fs) = .ok ⟨[], 0⟩ ∧
    (0 : Nat) < 100 * 1024 * 1024 ∧
    ((runTick ["r"] 100 50 ((runTick ["r"] 100 50
      (.dir true (.cons "o" (.file 62914560 1 true)
        (.cons "n" (.file 62914560 2 true) .nil)))).fs)).removedFiles = [] ∧
    (runTick ["r"] 100 50 ((runTick ["r"] 100 50
      (.dir true (.cons "o" (.file 62914560 1 true)
        (.cons "n" (.file 62914560 2 true) .nil)))).fs)).removedDirs = []) :=
  ⟨by decide, by decide, by decide,
    claim6_amended ["r"] 100 50
      (.dir true (.cons "o" (.file 62914560 1 true)
        (.cons "n" (.file 62914560 2 true) .nil))) [] 0
      (by decide) (by decide) (by decide)⟩

/-! ### Claim C7 -/

/-- C7 counterexample: with the default margin 85 and a 100 MB limit
(maxSizeBytes 104857600) the code's float-routed target is 89128962,
while the exactly computed floor(marginFraction times maxSizeBytes) is
89128960, so the claim that the two agree is false. -/
theorem claim7_counterexample :
    evictionTarget 85 (100 * 1024 * 1024) ≠ specTargetExact 85 (100 * 1024 * 1024) := by
  decide

/-- C7 amended: the low-water target the eviction loop uses is the value
the f32 and f64 arithmetic produces (evictionTarget), which can differ
from the exactly computed floor(marginFraction times maxSizeBytes); at
the default margin 85 with a 100 MB limit it is exactly 2 bytes above
the exact floor. -/
theorem claim7_amended :
    evictionTarget 85 (100 * 1024 * 1024) =
      specTargetExact 85 (100 * 1024 * 1024) + 2 := by
  decide

/-! ### Claim C8 -/

/-- C8: an entry whose metadata read fails is skipped and the scan of the
remaining entries continues: scanning any children sequence containing a
badMeta entry gives exactly the same outcome, entry list, total and
error behavior, as scanning the same sequence without that entry, so the
failed entry contributes neither an inventory entry nor any bytes. -/
theorem claim8_badmeta_skipped (p : FsPath) (l1 : FS) (n : String) (l2 : FS) :
    readDirChildren p (appendChildren l1 (.cons n .badMeta l2)) =
    readDirChildren p (appendChildren l1 l2) := by
  induction l1 with
  | file s m del => simp only [appendChildren, readDirChildren]
  | badMeta => simp only [appendChildren, readDirChildren]
  | nil => simp only [appendChildren, readDirChildren]
  | dir rb ch ihc => simp only [appendChildren, readDirChildren]
  | cons n1 c1 rest ihc ihr =>
    cases c1 with
    | file s m del => simp only [appendChildren, readDirChildren, ihr]
    | badMeta => simp only [appendChildren, readDirChildren, ihr]
    | nil => simp only [appendChildren, readDirChildren, ihr]
    | cons n2 c2 r2 => simp only [appendChildren, readDirChildren, ihr]
    | dir rb ch =>
      cases rb with
      | false => simp only [appendChildren, readDirChildren]
      | true => simp only [appendChildren, readDirChildren, ihr]

/-! ### Claim C9 -/

/-- C9: a listing failure on any subdirectory reachable through the
traversal, not only on the scan root, aborts the entire scan with an
error, so no partial inventory is produced and the tick changes nothing:
the tick leaves the filesystem untouched and performs no deletions. -/
theorem claim9_unreadable_subdir_aborts (directory : FsPath) (mb pct : Nat) (t : FS)
    (h : hasUnreadableAt t = true) :
    readDirAt directory t = .error () ∧
    (runTick directory mb pct t).removedFiles = [] ∧
    (runTick directory mb pct t).removedDirs = [] ∧
    (runTick directory mb pct t).fs = t := by
  have herr : readDirAt directory t = .error () := by
    cases t with
    | dir rb ch =>
      cases rb with
      | false => rfl
      | true =>
        simp only [hasUnreadableAt] at h
        simp only [readDirAt]
        rw [readDirChildren_unreadable ch directory h]
    | file s m del => rfl
    | badMeta => rfl
    | nil => rfl
    | cons n c rest => rfl
  refine ⟨herr, ?_, ?_, ?_⟩ <;> simp [runTick, herr]

/-- C9 witness: the theorem applied to a tree whose unreadable directory
sits two levels below the scan root. -/
theorem claim9_witness :
    hasUnreadableAt (.dir true (.cons "a" (.dir true
      (.cons "b" (.dir false .nil) .nil)) .nil)) = true ∧
    (readDirAt ["r"] (.dir true (.cons "a" (.dir true
      (.cons "b" (.dir false .nil) .nil)) .nil)) = .error () ∧
    (runTick ["r"] 1 85 (.dir true (.cons "a" (.dir true
      (.cons "b" (.dir false .nil) .nil)) .nil))).removedFiles = [] ∧
    (runTick ["r"] 1 85 (.dir true (.cons "a" (.dir true
      (.cons "b" (.dir false .nil) .nil)) .nil))).removedDirs = [] ∧
    (runTick ["r"] 1 85 (.dir true (.cons "a" (.dir true
      (.cons "b" (.dir false .nil) .nil)) .nil))).fs =
      .dir true (.cons "a" (.dir true (.cons "b" (.dir false .nil) .nil)) .nil)) :=
  ⟨by decide,
    claim9_unreadable_subdir_aborts ["r"] 1 85
      (.dir true (.cons "a" (.dir true (.cons "b" (.dir false .nil) .nil)) .nil))
      (by decide)⟩

/-! ### Claim C10 -/

/-- C10: the u64 subtraction in the eviction loop never underflows. The
scanned total equals the sum of the recorded sizes of the file entries
(each victim counted exactly once), the queue handed to the loop carries
exactly that sum, and in every iteration the popped size fits under the
current running total, so after any tick the running total plus the
sizes of all popped victims equals the scanned total, and the popped
sizes never exceed it. -/
theorem claim10_no_underflow (directory : FsPath) (mb pct : Nat) (fs : FS)
    (data : ReadDirResult) (h : readDirAt directory fs = .ok data) :
    sumSizes (process directory data mb pct fs).popped ≤ data.total_size ∧
    (process directory data mb pct fs).finalTotal +
      sumSizes (process directory data mb pct fs).popped = data.total_size := by
  have htot : data.total_size = sumSizes (filesOf data.entries) :=
    readDirAt_total directory fs data h
  by_cases hlt : data.total_size < mb * 1024 * 1024
  · rw [process_skip directory data mb pct fs hlt]
    simp [sumSizes_nil]
  · simp only [process, if_neg hlt]
    have hq : sumSizes ((sortByModified (filesOf data.entries)).reverse) ≤
        data.total_size := by
      rw [sumSizes_reverse, sumSizes_sortByModified, ← htot]
    exact evictLoop_account directory (evictionTarget pct (mb * 1024 * 1024))
      ((sortByModified (filesOf data.entries)).reverse) data.total_size
      (seedCounts directory data.entries) fs hq

/-- C10 witness: the theorem applied to a one-file tree with the limit at
0, so the eviction loop actually runs and pops the file. -/
theorem claim10_witness :
    readDirAt ["r"] (.dir true (.cons "x" (.file 3 1 true) .nil)) =
      .ok ⟨[.file ⟨["r", "x"], 3, 1⟩], 3⟩ ∧
    (sumSizes (process ["r"] ⟨[.file ⟨["r", "x"], 3, 1⟩], 3⟩ 0 85
        (.dir true (.cons "x" (.file 3 1 true) .nil))).popped ≤ 3 ∧
    (process ["r"] ⟨[.file ⟨["r", "x"], 3, 1⟩], 3⟩ 0 85
        (.dir true (.cons "x" (.file 3 1 true) .nil))).finalTotal +
      sumSizes (process ["r"] ⟨[.file ⟨["r", "x"], 3, 1⟩], 3⟩ 0 85
        (.dir true (.cons "x" (.file 3 1 true) .nil))).popped = 3) :=
  ⟨by decide,
    claim10_no_underflow ["r"] 0 85 (.dir true (.cons "x" (.file 3 1 true) .nil))
      ⟨[.file ⟨["r", "x"], 3, 1⟩], 3⟩ (by decide)⟩

end Maxdirsize
